import Mathlib

/-!
# Verification of `finite-state-sdk-python` behaviour

Shallow embedding, in Lean 4, of the parts of `finite_state_sdk` that the
specification's claims talk about:

* `get_all_paginated_results` (pagination over cursor pages, `__init__.py`),
* the chunked uploader `upload_file_for_binary_analysis` and its helper
  `file_chunks`,
* the export pollers `generate_report_download_url` /
  `generate_sbom_download_url` (both share one polling loop shape),
* `send_graphql_query`, and
* `TokenCache.get_token` (`token_cache.py`).

Python truthiness matters repeatedly (`while cursor`, `if limit and ...`,
`if downloadLink`), so the embedding models the relevant truthiness tests
explicitly on `Option String` / `Option Nat` values.
-/

set_option autoImplicit false

namespace FiniteStateSdk

/-! ## Pagination: `get_all_paginated_results`

A server page is the list `response_data['data'][field]`; each record is a
dict carrying a `_cursor` key (GraphQL may return `null` for it).  The record
payload is abstracted to a `Nat` identifier; only the `_cursor` field is
inspected by the code. -/

/-- One record of a server page: its `_cursor` field plus an opaque payload
standing for the rest of the dict. -/
structure PageRecord where
  cursor : Option String
  payload : Nat
  deriving DecidableEq, Repr

/-- A server page: the list stored under `response_data['data'][field]`. -/
abbrev Page := List PageRecord

/-- Python truthiness of a cursor value: `None` and `""` are falsy
(`while cursor:` in the source). -/
def truthyCursor : Option String → Bool
  | none => false
  | some s => !(s == "")

/-- Python truthiness of the `limit` argument: `None` and `0` are falsy
(`if limit and ...` in the source). -/
def truthyLimit : Option Nat → Bool
  | none => false
  | some k => !(k == 0)

/-- `cursor = page[len(page) - 1]['_cursor']` guarded by
`except IndexError: cursor = None`: the cursor of the last record of a page,
`None` for an empty page. -/
def lastCursor (p : Page) : Option String :=
  match p.getLast? with
  | none => none
  | some r => r.cursor

/-- The `while cursor:` loop of `get_all_paginated_results`.  `remaining` is
the sequence of pages the server will deliver to the successive requests,
`results` the accumulator, `cursor` the cursor extracted from the last
fetched page and `reqs` the number of GraphQL requests issued so far.
Returns `none` when the loop would request a page beyond the supplied
sequence (the model ran out of server pages), otherwise `some` of the final
`results` list together with the total number of requests issued. -/
def paginateLoop (limit : Option Nat) :
    List Page → List PageRecord → Option String → Nat →
      Option (List PageRecord × Nat)
  | remaining, results, cursor, reqs =>
    if truthyCursor cursor then
      if truthyLimit limit && decide (results.length = limit.getD 0) then
        some (results, reqs)
      else
        match remaining with
        | [] => none
        | p :: rest => paginateLoop limit rest (results ++ p) (lastCursor p) (reqs + 1)
    else
      some (results, reqs)

/-- `get_all_paginated_results(token, organization_context, query, variables,
field, limit)`: the input validation on `limit` and `variables["first"]`
followed by the fetch-and-accumulate loop.  `pages` is the sequence of pages
the server delivers to the successive requests (the first request always
happens and receives `pages[0]`).  `.error` models a raised `Exception`;
`.ok none` means the supplied page sequence was exhausted before the loop
terminated. -/
def get_all_paginated_results (pages : List Page) (first : Nat)
    (limit : Option Nat) : Except String (Option (List PageRecord × Nat)) :=
  if truthyLimit limit && decide (1000 < limit.getD 0) then
    .error "Error: limit cannot be greater than 1000"
  else if truthyLimit limit && decide (limit.getD 0 < 1) then
    .error "Error: limit cannot be less than 1"
  else if first == 0 then
    .error "Error: first is required"
  else if decide (first < 1) then
    .error "Error: first cannot be less than 1"
  else if decide (1000 < first) then
    .error "Error: limit cannot be greater than 1000"
  else
    match pages with
    | [] => .ok none
    | p1 :: rest =>
      if decide (0 < p1.length) then
        .ok (paginateLoop limit rest p1 (lastCursor p1) 1)
      else
        .ok (some (p1, 1))

/-- A terminal page trace `P1 .. Pn`: every page before the last is non-empty
and carries a truthy cursor on its last record (so the loop keeps going), and
the final page is empty or its last record's cursor is falsy (so the loop
stops). -/
def terminalTrace : List Page → Bool
  | [] => false
  | [p] => p.isEmpty || !truthyCursor (lastCursor p)
  | p :: q :: rest =>
    (!p.isEmpty) && truthyCursor (lastCursor p) && terminalTrace (q :: rest)



lemma paginateLoop_cons (limit : Option Nat) (p : Page) (rest : List Page)
    (results : List PageRecord) (cursor : Option String) (reqs : Nat)
    (hcur : truthyCursor cursor = true)
    (hlim : (truthyLimit limit && decide (results.length = limit.getD 0)) = false) :
    paginateLoop limit (p :: rest) results cursor reqs =
      paginateLoop limit rest (results ++ p) (lastCursor p) (reqs + 1) := by
  rw [paginateLoop.eq_def]
  simp [hcur, hlim]

lemma paginateLoop_stop (limit : Option Nat) (remaining : List Page)
    (results : List PageRecord) (cursor : Option String) (reqs : Nat)
    (hcur : truthyCursor cursor = false) :
    paginateLoop limit remaining results cursor reqs = some (results, reqs) := by
  rw [paginateLoop.eq_def]
  simp [hcur]

lemma truthyCursor_lastCursor_nil : truthyCursor (lastCursor []) = false := by
  simp [lastCursor, List.getLast?, truthyCursor]

lemma paginateLoop_exhaust (limit : Option Nat) (remaining : List Page) :
    ∀ (results : List PageRecord) (cursor : Option String) (reqs : Nat),
      truthyCursor cursor = true →
      terminalTrace remaining = true →
      (truthyLimit limit = true →
        ∀ j, (results ++ (remaining.take j).flatten).length ≠ limit.getD 0) →
      paginateLoop limit remaining results cursor reqs =
        some (results ++ remaining.flatten, reqs + remaining.length) := by
  induction remaining with
  | nil => intro results cursor reqs hcur ht _; simp [terminalTrace] at ht
  | cons p rest ih =>
    intro results cursor reqs hcur ht hpre
    have hlim : (truthyLimit limit && decide (results.length = limit.getD 0)) = false := by
      cases hl : truthyLimit limit with
      | false => simp
      | true =>
        have h0 := hpre hl 0
        simp only [List.take_zero, List.flatten_nil, List.append_nil] at h0
        simp [h0]
    rw [paginateLoop_cons _ _ _ _ _ _ hcur hlim]
    cases rest with
    | nil =>
      have hstop : truthyCursor (lastCursor p) = false := by
        simp only [terminalTrace, Bool.or_eq_true, Bool.not_eq_true'] at ht
        rcases ht with h | h
        · have : p = [] := List.isEmpty_iff.mp h
          rw [this]; exact truthyCursor_lastCursor_nil
        · exact h
      rw [paginateLoop_stop _ _ _ _ _ hstop]
      simp
    | cons q rest' =>
      simp only [terminalTrace, Bool.and_eq_true] at ht
      obtain ⟨⟨hne, hcur'⟩, ht'⟩ := ht
      rw [ih (results ++ p) (lastCursor p) (reqs + 1) hcur' ht' ?hpre']
      case hpre' =>
        intro hl j
        have := hpre hl (j + 1)
        simpa [List.take_succ_cons, List.flatten_cons, List.append_assoc] using this
      have harith : reqs + 1 + (rest'.length + 1) = reqs + (rest'.length + 1 + 1) := by omega
      simp only [List.flatten_cons, List.append_assoc, List.length_cons, harith]


lemma get_all_exhaust (pages : List Page) (first : Nat) (limit : Option Nat)
    (h1 : 0 < first) (h2 : first ≤ 1000)
    (hlim : truthyLimit limit = true → limit.getD 0 ≤ 1000)
    (ht : terminalTrace pages = true)
    (hpre : truthyLimit limit = true →
      ∀ j, ((pages.take j).flatten).length ≠ limit.getD 0) :
    get_all_paginated_results pages first limit =
      .ok (some (pages.flatten, pages.length)) := by
  have hv1 : (truthyLimit limit && decide (1000 < limit.getD 0)) = false := by
    cases hl : truthyLimit limit with
    | false => simp
    | true => simp [Nat.not_lt.mpr (hlim hl)]
  have hv2 : (truthyLimit limit && decide (limit.getD 0 < 1)) = false := by
    cases hl : truthyLimit limit with
    | false => simp
    | true =>
      cases limit with
      | none => simp [truthyLimit] at hl
      | some k =>
        have hk0 : k ≠ 0 := by simpa [truthyLimit] using hl
        have hd : decide ((some k).getD 0 < 1) = false := by
          simp only [Option.getD, decide_eq_false_iff_not]
          omega
        simp only [hd, Bool.and_false]
  unfold get_all_paginated_results
  rw [hv1, hv2]
  simp only [if_false, Bool.false_eq_true]
  have hf0 : (first == 0) = false := by simp; omega
  have hf1 : decide (first < 1) = false := by simp; omega
  have hf2 : decide (1000 < first) = false := by simp; omega
  rw [hf0, hf1, hf2]
  simp only [if_false, Bool.false_eq_true]
  cases pages with
  | nil => simp [terminalTrace] at ht
  | cons p1 rest =>
    change (if decide (0 < p1.length) = true
        then Except.ok (paginateLoop limit rest p1 (lastCursor p1) 1)
        else Except.ok (some (p1, 1))) = _
    by_cases hp1 : 0 < p1.length
    · rw [if_pos (by simpa using hp1)]
      cases rest with
      | nil =>
        have hstop : truthyCursor (lastCursor p1) = false := by
          simp only [terminalTrace, Bool.or_eq_true, Bool.not_eq_true'] at ht
          rcases ht with h | h
          · have : p1 = [] := List.isEmpty_iff.mp h
            simp [this] at hp1
          · exact h
        rw [paginateLoop_stop _ _ _ _ _ hstop]
        simp
      | cons q rest' =>
        simp only [terminalTrace, Bool.and_eq_true] at ht
        obtain ⟨⟨hne, hcur'⟩, ht'⟩ := ht
        rw [paginateLoop_exhaust limit (q :: rest') p1 (lastCursor p1) 1 hcur' ht' ?hpre']
        case hpre' =>
          intro hl j
          have := hpre hl (j + 1)
          simpa [List.take_succ_cons, List.flatten_cons, List.append_assoc] using this
        have harith : 1 + (rest'.length + 1) = rest'.length + 1 + 1 := by omega
        simp only [List.flatten_cons, List.length_cons, harith, List.append_assoc]
    · have hp1e : p1 = [] := by
        cases p1 with
        | nil => rfl
        | cons a l => simp at hp1
      subst hp1e
      cases rest with
      | nil => simp
      | cons q rest' =>
        simp [terminalTrace] at ht


lemma paginateLoop_hit (k : Nat) (remaining : List Page)
    (results : List PageRecord) (cursor : Option String) (reqs : Nat)
    (hcur : truthyCursor cursor = true) (hk : k ≠ 0)
    (hlen : results.length = k) :
    paginateLoop (some k) remaining results cursor reqs = some (results, reqs) := by
  rw [paginateLoop.eq_def]
  have hchk : (truthyLimit (some k) && decide (results.length = (some k).getD 0)) = true := by
    simp [truthyLimit, hk, Option.getD, hlen]
  simp only [Bool.and_eq_true, decide_eq_true_eq] at hchk
  simp [hcur, hchk.1, hchk.2]

lemma paginateLoop_limit_exact (k s : Nat) (hs : 0 < s) (hk : k ≠ 0) (front : List Page) :
    ∀ (extra : List Page) (results : List PageRecord) (cursor : Option String) (reqs : Nat),
      truthyCursor cursor = true →
      (∀ p ∈ front, p.length = s ∧ truthyCursor (lastCursor p) = true) →
      results.length + front.length * s = k →
      paginateLoop (some k) (front ++ extra) results cursor reqs =
        some (results ++ front.flatten, reqs + front.length) := by
  induction front with
  | nil =>
    intro extra results cursor reqs hcur _ hlen
    simp only [List.length_nil, Nat.zero_mul, Nat.add_zero] at hlen
    rw [List.nil_append]
    rw [paginateLoop_hit k extra results cursor reqs hcur hk hlen]
    simp
  | cons p front' ih =>
    intro extra results cursor reqs hcur hall hlen
    have hplen : p.length = s := (hall p (by simp)).1
    have hpcur : truthyCursor (lastCursor p) = true := (hall p (by simp)).2
    have hlt : results.length < k := by
      simp only [List.length_cons] at hlen
      have : (front'.length + 1) * s = front'.length * s + s := by ring
      omega
    have hchk : (truthyLimit (some k) && decide (results.length = (some k).getD 0)) = false := by
      simp [truthyLimit, Option.getD]
      omega
    rw [List.cons_append, paginateLoop_cons _ _ _ _ _ _ hcur hchk]
    rw [ih extra (results ++ p) (lastCursor p) (reqs + 1) hpcur ?hall' ?hlen']
    case hall' => intro q hq; exact hall q (by simp [hq])
    case hlen' =>
      simp only [List.length_append, hplen]
      simp only [List.length_cons] at hlen
      have : (front'.length + 1) * s = front'.length * s + s := by ring
      omega
    have harith : reqs + 1 + front'.length = reqs + (front'.length + 1) := by omega
    simp only [List.flatten_cons, List.append_assoc, List.length_cons, harith]



lemma flatten_length_const (s : Nat) (l : List Page)
    (h : ∀ p ∈ l, p.length = s) : l.flatten.length = l.length * s := by
  induction l with
  | nil => simp
  | cons p rest ih =>
    simp only [List.flatten_cons, List.length_append, List.length_cons]
    rw [h p (by simp), ih (fun q hq => h q (by simp [hq]))]
    ring

lemma get_all_limit_exact_aux (p1 : Page) (front' extra : List Page) (s k : Nat)
    (hs1 : 0 < s) (hs2 : s ≤ 1000) (hk2 : k ≤ 1000)
    (hall : ∀ p ∈ (p1 :: front'), p.length = s ∧ truthyCursor (lastCursor p) = true)
    (hmul : k = (p1 :: front').length * s) :
    get_all_paginated_results ((p1 :: front') ++ extra) s (some k) =
      .ok (some ((p1 :: front').flatten, (p1 :: front').length)) := by
  have hk0 : k ≠ 0 := by
    simp only [List.length_cons] at hmul
    have : (front'.length + 1) * s = front'.length * s + s := by ring
    omega
  have hv1 : (truthyLimit (some k) && decide (1000 < (some k).getD 0)) = false := by
    simp [Option.getD]
    omega
  have hv2 : (truthyLimit (some k) && decide ((some k).getD 0 < 1)) = false := by
    simp [Option.getD]
    omega
  unfold get_all_paginated_results
  rw [hv1, hv2]
  simp only [if_false, Bool.false_eq_true]
  have hf0 : (s == 0) = false := by simp; omega
  have hf1 : decide (s < 1) = false := by simp; omega
  have hf2 : decide (1000 < s) = false := by simp; omega
  rw [hf0, hf1, hf2]
  simp only [if_false, Bool.false_eq_true]
  rw [List.cons_append]
  change (if decide (0 < p1.length) = true
      then Except.ok (paginateLoop (some k) (front' ++ extra) p1 (lastCursor p1) 1)
      else Except.ok (some (p1, 1))) = _
  have hp1len : p1.length = s := (hall p1 (by simp)).1
  have hp1cur : truthyCursor (lastCursor p1) = true := (hall p1 (by simp)).2
  rw [if_pos (by simp [hp1len]; omega)]
  rw [paginateLoop_limit_exact k s hs1 hk0 front' extra p1 (lastCursor p1) 1 hp1cur
    (fun q hq => hall q (by simp [hq])) ?hlen]
  case hlen =>
    simp only [List.length_cons] at hmul
    have : (front'.length + 1) * s = front'.length * s + s := by ring
    omega
  have harith : 1 + front'.length = front'.length + 1 := by omega
  simp only [List.flatten_cons, List.length_cons, harith]

/-- C1 (amended): for a terminal page trace `P1 .. Pn` (every page before the
last non-empty with a truthy cursor, the last empty or cursorless) and no
limit, `get_all_paginated_results` returns the concatenation of the records
of ALL pages `P1 .. Pn` in server page-arrival order (which equals
`P1 .. Pn-1` exactly when `Pn` is empty) and issues exactly `n` GraphQL
requests.  The claim as frozen says the result is the concatenation of
`P1 .. Pn-1` only; see the counterexample below. -/
theorem get_all_paginated_results_page_concat (pages : List Page) (first : Nat)
    (h1 : 0 < first) (h2 : first ≤ 1000)
    (ht : terminalTrace pages = true) :
    get_all_paginated_results pages first none =
      .ok (some (pages.flatten, pages.length)) :=
  get_all_exhaust pages first none h1 h2
    (by intro h; simp [truthyLimit] at h) ht
    (by intro h; simp [truthyLimit] at h)

/-- Witness for C1: three pages (two full, final empty), no limit: the result
is the concatenation of the first two pages' records and 3 requests. -/
theorem get_all_paginated_results_page_concat_witness :
    get_all_paginated_results
        [[⟨some "a", 1⟩, ⟨some "b", 2⟩], [⟨some "c", 3⟩], []] 100 none =
      .ok (some ([⟨some "a", 1⟩, ⟨some "b", 2⟩, ⟨some "c", 3⟩], 3)) :=
  get_all_paginated_results_page_concat
    [[⟨some "a", 1⟩, ⟨some "b", 2⟩], [⟨some "c", 3⟩], []] 100
    (by decide) (by decide) (by decide)

/-- Counterexample to C1 as frozen: with a single page `P1 = [record]` whose
record lacks a cursor (a terminal trace with `n = 1`), the function returns
that record — not the concatenation of `P1 .. P0 = []` that the claim
demands.  A non-empty final page's records are always kept: `results` is
extended with the page before its cursor is inspected. -/
theorem get_all_paginated_results_keeps_last_page :
    terminalTrace [[⟨none, 7⟩]] = true ∧
    get_all_paginated_results [[⟨none, 7⟩]] 100 none =
      .ok (some ([⟨none, 7⟩], 1)) ∧
    ([(⟨none, 7⟩ : PageRecord)] : List PageRecord) ≠ [] := by
  refine ⟨by decide, by rfl, by simp⟩

/-- C5: if `limit = k` is an exact multiple of the page size `s`
(`variables["first"]`), every delivered page is full (length `s`) with a
truthy cursor, and the server holds further pages beyond the first
`k / s` of them, then the call returns exactly the first `k / s` pages'
records — a list of length exactly `k` — in `k / s` requests. -/
theorem get_all_paginated_results_limit_exact (p1 : Page)
    (front' extra : List Page) (s k : Nat)
    (hs1 : 0 < s) (hs2 : s ≤ 1000) (hk2 : k ≤ 1000)
    (hall : ∀ p ∈ (p1 :: front'), p.length = s ∧ truthyCursor (lastCursor p) = true)
    (hmul : k = (p1 :: front').length * s) :
    get_all_paginated_results ((p1 :: front') ++ extra) s (some k) =
      .ok (some ((p1 :: front').flatten, (p1 :: front').length)) ∧
    ((p1 :: front').flatten).length = k := by
  refine ⟨get_all_limit_exact_aux p1 front' extra s k hs1 hs2 hk2 hall hmul, ?_⟩
  rw [flatten_length_const s _ (fun p hp => (hall p hp).1)]
  omega

/-- Witness for C5: page size 2, limit 4, five records available: the first
four records are returned (length exactly 4) in 2 requests. -/
theorem get_all_paginated_results_limit_exact_witness :
    get_all_paginated_results
        [[⟨some "a", 1⟩, ⟨some "a", 2⟩], [⟨some "a", 3⟩, ⟨some "a", 4⟩],
          [⟨some "a", 5⟩]] 2 (some 4) =
      .ok (some ([⟨some "a", 1⟩, ⟨some "a", 2⟩, ⟨some "a", 3⟩, ⟨some "a", 4⟩], 2)) ∧
    ([(⟨some "a", 1⟩ : PageRecord), ⟨some "a", 2⟩, ⟨some "a", 3⟩,
      ⟨some "a", 4⟩] : List PageRecord).length = 4 :=
  get_all_paginated_results_limit_exact
    [⟨some "a", 1⟩, ⟨some "a", 2⟩] [[⟨some "a", 3⟩, ⟨some "a", 4⟩]]
    [[⟨some "a", 5⟩]] 2 4
    (by decide) (by decide) (by decide) (by decide) (by decide)

/-- C10: when no prefix of whole server pages accumulates to exactly `k`
records, the `len(results) == limit` check never fires: the call with
`limit = k` behaves exactly like the call without a limit, paginating to
server-side exhaustion and returning every fetched record untruncated. -/
theorem get_all_paginated_results_limit_skipped (pages : List Page)
    (first k : Nat) (h1 : 0 < first) (h2 : first ≤ 1000)
    (hk0 : 0 < k) (hk : k ≤ 1000) (ht : terminalTrace pages = true)
    (hpre : ∀ j, ((pages.take j).flatten).length ≠ k) :
    get_all_paginated_results pages first (some k) =
      .ok (some (pages.flatten, pages.length)) ∧
    get_all_paginated_results pages first (some k) =
      get_all_paginated_results pages first none := by
  have hfst := get_all_exhaust pages first (some k) h1 h2
    (fun _ => by simpa using hk) ht (fun _ j => by simpa using hpre j)
  have hsnd := get_all_exhaust pages first none h1 h2
    (by intro h; simp [truthyLimit] at h) ht
    (by intro h; simp [truthyLimit] at h)
  exact ⟨hfst, hfst.trans hsnd.symm⟩

/-- Witness for C10: pages of size 2 with limit 3 (never equal to a prefix
sum): all 4 available records are returned, strictly more than the limit. -/
theorem get_all_paginated_results_limit_skipped_witness :
    (get_all_paginated_results
        [[⟨some "a", 1⟩, ⟨some "a", 2⟩], [⟨some "a", 3⟩, ⟨some "a", 4⟩], []]
        2 (some 3) =
      .ok (some ([⟨some "a", 1⟩, ⟨some "a", 2⟩, ⟨some "a", 3⟩, ⟨some "a", 4⟩], 3))) ∧
    (get_all_paginated_results
        [[⟨some "a", 1⟩, ⟨some "a", 2⟩], [⟨some "a", 3⟩, ⟨some "a", 4⟩], []]
        2 (some 3) =
      get_all_paginated_results
        [[⟨some "a", 1⟩, ⟨some "a", 2⟩], [⟨some "a", 3⟩, ⟨some "a", 4⟩], []]
        2 none) :=
  get_all_paginated_results_limit_skipped
    [[⟨some "a", 1⟩, ⟨some "a", 2⟩], [⟨some "a", 3⟩, ⟨some "a", 4⟩], []] 2 3
    (by decide) (by decide) (by decide) (by decide) (by decide)
    (by
      intro j
      match j with
      | 0 => decide
      | 1 => decide
      | 2 => decide
      | n + 3 => rw [List.take_of_length_le (by simp)]; decide)


/-! ## Chunked upload: `upload_file_for_binary_analysis` -/

/-- `DEFAULT CHUNK SIZE: 1000 MiB` (`DEFAULT_CHUNK_SIZE = 1024**2 * 1000`). -/
def DEFAULT_CHUNK_SIZE : Nat := 1024 ^ 2 * 1000

/-- The constant the source documents as `MAX CHUNK SIZE: 2 GiB` but defines
as `MAX_CHUNK_SIZE = 1024**2 * 2000`, i.e. 2000 MiB. -/
def MAX_CHUNK_SIZE : Nat := 1024 ^ 2 * 2000

/-- `MIN CHUNK SIZE: 5 MiB` (`MIN_CHUNK_SIZE = 1024**2 * 5`). -/
def MIN_CHUNK_SIZE : Nat := 1024 ^ 2 * 5

/-- Python truthiness of an optional string argument (`if not test_id`):
`None` and `""` are falsy. -/
def truthyStr : Option String → Bool
  | none => false
  | some s => !(s == "")

/-- `file_chunks(file_path, chunk_size)`: reads the file in chunks of
`chunk_size` bytes; the final chunk may be shorter; a zero-byte file yields
no chunks (`f.read` returns `b""` at once and the loop breaks).  `content`
is the byte content of the file.  (`f.read(0)` also returns `b""`, so a zero
`chunk_size` yields no chunks; the uploader's validation rules that out.) -/
def file_chunks (content : List Nat) (chunk_size : Nat) : List (List Nat) :=
  if h : chunk_size = 0 ∨ content = [] then []
  else
    content.take chunk_size :: file_chunks (content.drop chunk_size) chunk_size
termination_by content.length
decreasing_by
  push_neg at h
  obtain ⟨h0, hne⟩ := h
  have h1 : 0 < chunk_size := Nat.pos_of_ne_zero h0
  have h2 : 0 < content.length := List.length_pos.mpr hne
  simp only [List.length_drop]
  omega

/-- One element of `part_data`: `{"ETag": ..., "PartNumber": ...}`. -/
structure PartEntry where
  etag : String
  partNumber : Nat
  deriving DecidableEq, Repr

/-- The per-chunk loop of `upload_file_for_binary_analysis`: `i` starts at 0
and is incremented before each chunk is processed; each iteration appends
`{"ETag": response.headers['ETag'], "PartNumber": i}` to `part_data`.
`etagOf i` is the `ETag` header of the PUT response for part number `i`. -/
def uploadPartsAux (etagOf : Nat → String) :
    List (List Nat) → Nat → List PartEntry → List PartEntry
  | [], _, part_data => part_data
  | _ :: rest, i, part_data =>
    uploadPartsAux etagOf rest (i + 1) (part_data ++ [⟨etagOf (i + 1), i + 1⟩])

/-- The `part_data` list passed to `completeMultipartUploadV2` for a file
that splits into the given chunks. -/
def uploadParts (chunks : List (List Nat)) (etagOf : Nat → String) :
    List PartEntry :=
  uploadPartsAux etagOf chunks 0 []

lemma uploadPartsAux_eq (etagOf : Nat → String) (chunks : List (List Nat)) :
    ∀ (i : Nat) (acc : List PartEntry),
      uploadPartsAux etagOf chunks i acc =
        acc ++ (List.range chunks.length).map
          (fun j => ⟨etagOf (i + j + 1), i + j + 1⟩) := by
  induction chunks with
  | nil => intro i acc; simp [uploadPartsAux]
  | cons c rest ih =>
    intro i acc
    rw [uploadPartsAux, ih (i + 1)]
    simp only [List.length_cons, List.range_succ_eq_map, List.map_cons,
      List.map_map, List.append_assoc, List.cons_append, List.nil_append]
    congr 2
    have : ∀ j ∈ List.range rest.length,
        (⟨etagOf (i + 1 + j + 1), i + 1 + j + 1⟩ : PartEntry) =
          ((fun j => (⟨etagOf (i + j + 1), i + j + 1⟩ : PartEntry)) ∘ Nat.succ) j := by
      intro j _
      simp only [Function.comp_apply]
      have harith : i + 1 + j + 1 = i + Nat.succ j + 1 := by omega
      rw [harith]
    exact List.map_congr_left this

lemma uploadParts_eq (chunks : List (List Nat)) (etagOf : Nat → String) :
    uploadParts chunks etagOf =
      (List.range chunks.length).map (fun j => ⟨etagOf (j + 1), j + 1⟩) := by
  rw [uploadParts, uploadPartsAux_eq]
  simp


/-- One network interaction performed by `upload_file_for_binary_analysis`,
in program order: the `startMultipartUploadV2` mutation, the per-chunk
`generateUploadPartUrlV2` mutation and PUT of the chunk bytes, the
`completeMultipartUploadV2` mutation with the accumulated `part_data`, and
the final `launchBinaryUploadProcessing` mutation. -/
inductive UploadEvent where
  | start
  | generatePartUrl (partNumber : Nat)
  | putPart (partNumber : Nat)
  | complete (partData : List PartEntry)
  | launch
  deriving DecidableEq, Repr

/-- The network events of the per-chunk loop: for the chunk processed with
counter value `i + 1`, a `generateUploadPartUrlV2` request then a PUT. -/
def uploadLoopEvents : List (List Nat) → Nat → List UploadEvent
  | [], _ => []
  | _ :: rest, i =>
    .generatePartUrl (i + 1) :: .putPart (i + 1) :: uploadLoopEvents rest (i + 1)

/-- `upload_file_for_binary_analysis(token, organization_context, test_id,
file_path, chunk_size, quick_scan)`: argument validation followed by the
multipart upload.  `content` is the byte content of the file at `file_path`
and `etagOf i` the `ETag` header of the PUT response for part `i`.  Returns
the ordered list of network interactions; `.error` models a raised
`ValueError`. -/
def upload_file_for_binary_analysis (test_id file_path : Option String)
    (content : List Nat) (chunk_size : Nat) (etagOf : Nat → String) :
    Except String (List UploadEvent) :=
  if !truthyStr test_id then
    .error "Test Id is required"
  else if !truthyStr file_path then
    .error "File Path is required"
  else if chunk_size < MIN_CHUNK_SIZE then
    .error "Chunk size must be greater than MIN_CHUNK_SIZE bytes"
  else if MAX_CHUNK_SIZE ≤ chunk_size then
    .error "Chunk size must be less than MAX_CHUNK_SIZE bytes"
  else
    let chunks := file_chunks content chunk_size
    .ok ([.start] ++ uploadLoopEvents chunks 0 ++
      [.complete (uploadParts chunks etagOf), .launch])


/-- C2: for a file split into N chunks, `part_data` as passed to
`completeMultipartUploadV2` has exactly N entries, whose `PartNumber`s are
`1..N` in strictly increasing order, each `ETag` being the PUT response
header of the chunk with that part number; and after any prefix of `j`
per-chunk appends the accumulated `part_data` is exactly the entries
numbered `1..j`, so the ordering is preserved by every append. -/
theorem uploadParts_part_numbers (chunks : List (List Nat)) (etagOf : Nat → String) :
    uploadParts chunks etagOf =
      (List.range chunks.length).map (fun j => ⟨etagOf (j + 1), j + 1⟩) ∧
    (uploadParts chunks etagOf).length = chunks.length ∧
    (uploadParts chunks etagOf).map (fun e => e.partNumber) =
      (List.range chunks.length).map (fun j => j + 1) ∧
    List.Pairwise (fun a b => a.partNumber < b.partNumber) (uploadParts chunks etagOf) ∧
    (∀ j, uploadParts (chunks.take j) etagOf =
      (List.range (min j chunks.length)).map (fun i => ⟨etagOf (i + 1), i + 1⟩)) := by
  refine ⟨uploadParts_eq chunks etagOf, ?_, ?_, ?_, ?_⟩
  · simp [uploadParts_eq]
  · simp [uploadParts_eq, List.map_map]
  · rw [uploadParts_eq, List.pairwise_map]
    refine (List.pairwise_lt_range _).imp ?_
    intro a b hab
    show a + 1 < b + 1
    omega
  · intro j
    rw [uploadParts_eq]
    simp [List.length_take]

/-- C4 (evidence of the code/documentation divergence): the source's own doc
comment calls `MAX_CHUNK_SIZE` "2 GiB" and the uploader's docstring says
"max 2GiB", but the constant is `1024**2 * 2000` = 2000 MiB, so a
`chunk_size` of exactly 2000 MiB — inside the documented `[5 MiB, 2 GiB)`
interval — is rejected with a `ValueError` before any network call. -/
theorem upload_file_rejects_chunk_size_below_2GiB :
    MIN_CHUNK_SIZE ≤ 1024 ^ 2 * 2000 ∧
    1024 ^ 2 * 2000 < 2 * 1024 ^ 3 ∧
    upload_file_for_binary_analysis (some "t") (some "f") [0] (1024 ^ 2 * 2000)
        (fun _ => "e") =
      .error "Chunk size must be less than MAX_CHUNK_SIZE bytes" :=
  ⟨by decide, by decide, by rfl⟩

/-- C9: uploading a zero-byte file (with truthy `test_id` and `file_path`
and an in-range `chunk_size`) performs the start call, then the complete
call with `part_data = []` — zero `generateUploadPartUrlV2` requests and
zero PUTs — and then the launch-processing call. -/
theorem upload_file_empty_file (test_id file_path : Option String)
    (chunk_size : Nat) (etagOf : Nat → String)
    (h1 : truthyStr test_id = true) (h2 : truthyStr file_path = true)
    (h3 : MIN_CHUNK_SIZE ≤ chunk_size) (h4 : chunk_size < MAX_CHUNK_SIZE) :
    upload_file_for_binary_analysis test_id file_path [] chunk_size etagOf =
      .ok [.start, .complete [], .launch] := by
  have h3' : ¬(chunk_size < MIN_CHUNK_SIZE) := Nat.not_lt.mpr h3
  have h4' : ¬(MAX_CHUNK_SIZE ≤ chunk_size) := Nat.not_le.mpr h4
  have hc : file_chunks [] chunk_size = [] := by rw [file_chunks]; simp
  simp [upload_file_for_binary_analysis, h1, h2, h3', h4', hc, uploadParts,
    uploadPartsAux, uploadLoopEvents]

/-- Witness for C9 at a concrete instantiation: default chunk size, empty
content. -/
theorem upload_file_empty_file_witness :
    upload_file_for_binary_analysis (some "t") (some "f") [] DEFAULT_CHUNK_SIZE
        (fun _ => "e") =
      .ok [.start, .complete [], .launch] :=
  upload_file_empty_file (some "t") (some "f") DEFAULT_CHUNK_SIZE (fun _ => "e")
    (by decide) (by decide) (by decide) (by decide)



/-! ## Export pollers: `generate_report_download_url` /
`generate_sbom_download_url`

Both functions end in the same loop: `sleep_time = 10`, then
`while True: time.sleep(sleep_time); ...` issues the
`generateExportDownloadPresignedUrl` status query and returns its
`downloadLink` only when `status == 'COMPLETED'` and the link is truthy. -/

/-- `sleep_time = 10` (seconds) in both pollers. -/
def SLEEP_TIME : Nat := 10

/-- One response of the `generateExportDownloadPresignedUrl` status query:
its `status` string and its `downloadLink` (possibly `null`). -/
structure PollResponse where
  status : String
  downloadLink : Option String
  deriving DecidableEq, Repr

/-- The poll response that terminates the loop: `status == 'COMPLETED'` and
a truthy `downloadLink`. -/
def pollDone (r : PollResponse) : Bool :=
  (r.status == "COMPLETED") && truthyStr r.downloadLink

/-- The polling loop of both download-URL generators, driven by the sequence
of status-query responses the server will return.  Each iteration first
sleeps (`sleeps` counts completed `time.sleep(sleep_time)` calls), then
issues the status query consuming the next response; on a terminating
response it returns the number of sleeps performed and the download link.
`none` means the supplied response sequence was exhausted with the loop
still running. -/
def pollLoop : List PollResponse → Nat → Option (Nat × String)
  | [], _ => none
  | r :: rest, sleeps =>
    if pollDone r then
      some (sleeps + 1, r.downloadLink.getD "")
    else
      pollLoop rest (sleeps + 1)

/-- The polling phase of `generate_report_download_url` and
`generate_sbom_download_url`: the loop entered with zero sleeps performed. -/
def generate_download_url_poll (responses : List PollResponse) :
    Option (Nat × String) :=
  pollLoop responses 0

lemma pollLoop_not_done (responses : List PollResponse) :
    ∀ sleeps, (∀ r ∈ responses, pollDone r = false) →
      pollLoop responses sleeps = none := by
  induction responses with
  | nil => intro sleeps _; rfl
  | cons r rest ih =>
    intro sleeps hall
    rw [pollLoop]
    rw [hall r (by simp)]
    simp only [Bool.false_eq_true, if_false]
    exact ih (sleeps + 1) (fun q hq => hall q (by simp [hq]))

/-- C3 (amended): on the status-response sequence RUNNING, RUNNING,
COMPLETED-with-link-"X", the poller performs exactly THREE sleeps of the
poll interval — one before every status query, including the first — and
returns "X".  The frozen claim says two sleeps; the counterexample theorem
below records the discrepancy. -/
theorem poller_completion_sleeps :
    generate_download_url_poll
        [⟨"RUNNING", none⟩, ⟨"RUNNING", none⟩, ⟨"COMPLETED", some "X"⟩] =
      some (3, "X") := by
  rfl

/-- Counterexample to C3 as frozen: the same run performs 3 sleeps, not 2,
because `time.sleep` precedes the status query inside the loop body. -/
theorem poller_completion_not_two_sleeps :
    generate_download_url_poll
        [⟨"RUNNING", none⟩, ⟨"RUNNING", none⟩, ⟨"COMPLETED", some "X"⟩] ≠
      some (2, "X") := by
  decide

/-- C7: the poller never terminates on a response whose status is not
COMPLETED or whose downloadLink is absent (or empty): on any finite
response sequence, of any length, containing no COMPLETED-with-truthy-link
response, the loop consumes every response and is still polling — there is
no retry cap or timeout that could make it return. -/
theorem poller_never_returns_without_completed (responses : List PollResponse)
    (h : ∀ r ∈ responses,
      ¬(r.status = "COMPLETED" ∧ truthyStr r.downloadLink = true)) :
    generate_download_url_poll responses = none := by
  apply pollLoop_not_done
  intro r hr
  have hr2 := h r hr
  rw [pollDone]
  by_cases hs : r.status = "COMPLETED"
  · have hl : truthyStr r.downloadLink = false := by
      cases hl : truthyStr r.downloadLink with
      | false => rfl
      | true => exact absurd ⟨hs, hl⟩ hr2
    simp [hl]
  · simp [hs]


/-- Witness for C7: five responses, none COMPLETED-with-truthy-link (also
exercising COMPLETED with a null link and with an empty-string link): the
poller is still running after all of them. -/
theorem poller_never_returns_without_completed_witness :
    generate_download_url_poll
        [⟨"RUNNING", none⟩, ⟨"QUEUED", none⟩, ⟨"ERROR", some "x"⟩,
         ⟨"COMPLETED", none⟩, ⟨"COMPLETED", some ""⟩] = none :=
  poller_never_returns_without_completed
    [⟨"RUNNING", none⟩, ⟨"QUEUED", none⟩, ⟨"ERROR", some "x"⟩,
     ⟨"COMPLETED", none⟩, ⟨"COMPLETED", some ""⟩] (by decide)

/-! ## Token cache: `TokenCache.get_token` (`token_cache.py`)

`get_token` first checks the in-memory `self.token`; only when that is
`None` does it look at the cache file and its mtime.  Times are `Int`
seconds; `24 * 60 * 60 = 86400`. -/

/-- The observable state of a `TokenCache`: the in-memory `self.token` and
the cache file, when present, as its contents paired with its mtime. -/
structure CacheState where
  token : Option String
  file : Option (String × Int)
  deriving DecidableEq, Repr

/-- `TokenCache.get_token(client_id, client_secret)` at time `now`, where
`apiToken` is what `finite_state_sdk.get_auth_token` would return.  Result:
the returned token, the state after the call, and how many token-API calls
were made.  `_get_token_from_api` sets `self.token` and writes the file
(fresh mtime `now`); `invalidate_token` clears both. -/
def get_token (st : CacheState) (now : Int) (apiToken : String) :
    String × CacheState × Nat :=
  match st.token with
  | some t => (t, st, 0)
  | none =>
    match st.file with
    | some (contents, mtime) =>
      if mtime < now - 24 * 60 * 60 then
        (apiToken, ⟨some apiToken, some (apiToken, now)⟩, 1)
      else
        (contents, ⟨some contents, some (contents, mtime)⟩, 0)
    | none => (apiToken, ⟨some apiToken, some (apiToken, now)⟩, 1)

/-- C8 (amended): the 24-hour freshness rule governs every `get_token` call
made with no token held in memory: a cache file whose mtime is not older
than 24 hours is returned with zero API calls; a strictly older one is
deleted (its contents never returned) and the API is called exactly once,
rewriting the file; with no cache file the API is called exactly once.  A
token already held in memory is returned as-is, with no freshness check —
the frozen claim's "every reachable cache state" is refuted by the
counterexample below. -/
theorem get_token_freshness (contents apiToken : String) (mtime now : Int) :
    (now - 86400 ≤ mtime →
      get_token ⟨none, some (contents, mtime)⟩ now apiToken =
        (contents, ⟨some contents, some (contents, mtime)⟩, 0)) ∧
    (mtime < now - 86400 →
      get_token ⟨none, some (contents, mtime)⟩ now apiToken =
        (apiToken, ⟨some apiToken, some (apiToken, now)⟩, 1)) ∧
    get_token ⟨none, none⟩ now apiToken =
      (apiToken, ⟨some apiToken, some (apiToken, now)⟩, 1) := by
  have hunfold : get_token ⟨none, some (contents, mtime)⟩ now apiToken =
      if mtime < now - 24 * 60 * 60 then
        (apiToken, ⟨some apiToken, some (apiToken, now)⟩, 1)
      else
        (contents, ⟨some contents, some (contents, mtime)⟩, 0) := rfl
  refine ⟨?_, ?_, rfl⟩
  · intro hfresh
    rw [hunfold, if_neg (by omega)]
  · intro hstale
    rw [hunfold, if_pos (by omega)]

/-- Witness for C8: a file aged 23 hours is served from disk with zero API
calls; aged 25 hours it is discarded and the API called exactly once. -/
theorem get_token_freshness_witness :
    get_token ⟨none, some ("cached", 100 * 3600 - 23 * 3600)⟩ (100 * 3600) "fresh" =
      ("cached", ⟨some "cached", some ("cached", 100 * 3600 - 23 * 3600)⟩, 0) ∧
    get_token ⟨none, some ("cached", 100 * 3600 - 25 * 3600)⟩ (100 * 3600) "fresh" =
      ("fresh", ⟨some "fresh", some ("fresh", 100 * 3600)⟩, 1) :=
  ⟨(get_token_freshness "cached" "fresh" (100 * 3600 - 23 * 3600) (100 * 3600)).1
      (by omega),
   (get_token_freshness "cached" "fresh" (100 * 3600 - 25 * 3600) (100 * 3600)).2.1
      (by omega)⟩

/-- Counterexample to C8 as frozen: a reachable state violating the
invariant.  At time 100h a fresh `TokenCache` (no in-memory token) reads a
23-hour-old cache file, loading "cached" into memory.  Two hours later the
file's mtime is 25 hours in the past — older than 24 hours — yet `get_token`
returns the same cached token with zero API calls and no refresh, because
the in-memory branch never checks freshness. -/
theorem get_token_memory_stale :
    (get_token ⟨none, some ("cached", 77 * 3600)⟩ (100 * 3600) "fresh").2.1 =
      (⟨some "cached", some ("cached", 77 * 3600)⟩ : CacheState) ∧
    get_token ⟨some "cached", some ("cached", 77 * 3600)⟩ (102 * 3600) "fresh" =
      ("cached", ⟨some "cached", some ("cached", 77 * 3600)⟩, 0) ∧
    ((77 * 3600 : Int) < 102 * 3600 - 24 * 3600) := by
  have hunfold : get_token ⟨none, some ("cached", 77 * 3600)⟩ (100 * 3600) "fresh" =
      if (77 * 3600 : Int) < 100 * 3600 - 24 * 60 * 60 then
        ("fresh", ⟨some "fresh", some ("fresh", 100 * 3600)⟩, 1)
      else
        ("cached", ⟨some "cached", some ("cached", 77 * 3600)⟩, 0) := rfl
  refine ⟨?_, rfl, by decide⟩
  rw [hunfold, if_neg (by omega)]


end FiniteStateSdk
namespace FiniteStateSdk

/-! ## `send_graphql_query`

The function POSTs the query and then:
`if response.status_code == 200:` parse the JSON body; raise
`Exception(f"Error: {thejson ['errors']}")` when the body has a top-level
`errors` key, otherwise return the body; `else:` raise
`Exception(f"Error: {response.status_code} - {response.text}")`.
Both failure kinds raise the same bare `Exception` type, so the only
caller-visible difference is the message string — modelled here as the
`.error` payload.  A parsed JSON value is rendered into the message the way
a Python f-string renders it (`str`). -/

/-- A parsed JSON value. -/
inductive Json where
  | null
  | bool (b : Bool)
  | num (n : Int)
  | str (s : String)
  | arr (xs : List Json)
  | obj (fields : List (String × Json))
  deriving Repr

mutual

/-- Python `repr` of a parsed JSON value (used for elements of containers;
string escaping inside `repr` of a string is not modelled). -/
def pyRepr : Json → String
  | .null => "None"
  | .bool true => "True"
  | .bool false => "False"
  | .num n => toString n
  | .str s => "\x27" ++ s ++ "\x27"
  | .arr xs => "[" ++ pyReprListAux xs ++ "]"
  | .obj fs => "\x7b" ++ pyReprFieldsAux fs ++ "\x7d"

/-- `", ".join(repr(e) for e in xs)`. -/
def pyReprListAux : List Json → String
  | [] => ""
  | [x] => pyRepr x
  | x :: y :: rest => pyRepr x ++ ", " ++ pyReprListAux (y :: rest)

/-- The comma-joined `repr(k): repr(v)` rendering of a dict's items. -/
def pyReprFieldsAux : List (String × Json) → String
  | [] => ""
  | [(k, v)] => "\x27" ++ k ++ "\x27: " ++ pyRepr v
  | (k, v) :: y :: rest =>
    "\x27" ++ k ++ "\x27: " ++ pyRepr v ++ ", " ++ pyReprFieldsAux (y :: rest)

end

/-- Python `str` of a parsed JSON value, as an f-string interpolates it:
like `repr`, except that a top-level string is inserted verbatim. -/
def pyStr : Json → String
  | .null => "None"
  | .bool true => "True"
  | .bool false => "False"
  | .num n => toString n
  | .str s => s
  | .arr xs => "[" ++ pyReprListAux xs ++ "]"
  | .obj fs => "\x7b" ++ pyReprFieldsAux fs ++ "\x7d"

/-- The HTTP response to the POST in `send_graphql_query`: status code, raw
text, and the parsed JSON body (a top-level object, as GraphQL returns). -/
structure HttpResponse where
  statusCode : Nat
  text : String
  body : List (String × Json)

/-- `send_graphql_query(token, organization_context, query, variables)`,
as a function of the HTTP response it receives: on status 200 without a
top-level `errors` key, the parsed body unchanged; otherwise `.error` with
the raised `Exception`'s message. -/
def send_graphql_query (resp : HttpResponse) :
    Except String (List (String × Json)) :=
  if resp.statusCode == 200 then
    match resp.body.lookup "errors" with
    | some errs => .error ("Error: " ++ pyStr errs)
    | none => .ok resp.body
  else
    .error ("Error: " ++ toString resp.statusCode ++ " - " ++ resp.text)

/-- C6 (amended): `send_graphql_query` fails exactly when the HTTP status is
not 200 or the 200-response's JSON body has a top-level `errors` key;
otherwise it returns the parsed body unchanged.  A non-200 failure's message
carries the status code and raw response text; a GraphQL-level failure's
message carries the rendered errors payload.  Both raise the same bare
`Exception` type, so the two failure kinds are distinguishable only by
message text — which can collide (see the counterexample). -/
theorem send_graphql_query_error_conditions (resp : HttpResponse) :
    ((send_graphql_query resp).isOk = true ↔
      (resp.statusCode = 200 ∧ resp.body.lookup "errors" = none)) ∧
    (resp.statusCode = 200 → resp.body.lookup "errors" = none →
      send_graphql_query resp = .ok resp.body) ∧
    (resp.statusCode ≠ 200 →
      send_graphql_query resp =
        .error ("Error: " ++ toString resp.statusCode ++ " - " ++ resp.text)) ∧
    (resp.statusCode = 200 → ∀ errs, resp.body.lookup "errors" = some errs →
      send_graphql_query resp = .error ("Error: " ++ pyStr errs)) := by
  by_cases h200 : resp.statusCode = 200
  · cases herr : resp.body.lookup "errors" with
    | some errs =>
      have hfail : send_graphql_query resp = .error ("Error: " ++ pyStr errs) := by
        simp [send_graphql_query, h200, herr]
      refine ⟨?_, ?_, ?_, ?_⟩
      · rw [hfail]
        constructor
        · intro hok; exact absurd hok (by simp [Except.isOk, Except.toBool])
        · rintro ⟨_, hnone⟩; exact absurd hnone (by simp)
      · intro _ hnone; exact absurd hnone (by simp)
      · intro h; exact absurd h200 h
      · intro _ e he
        rw [← Option.some.inj he]
        exact hfail
    | none =>
      have hok : send_graphql_query resp = .ok resp.body := by
        simp [send_graphql_query, h200, herr]
      refine ⟨?_, ?_, ?_, ?_⟩
      · rw [hok]
        simp [Except.isOk, Except.toBool, h200]
      · intro _ _; exact hok
      · intro h; exact absurd h200 h
      · intro _ e he; exact absurd he (by simp)
  · have hfail : send_graphql_query resp =
        .error ("Error: " ++ toString resp.statusCode ++ " - " ++ resp.text) := by
      simp [send_graphql_query, h200]
    refine ⟨?_, ?_, ?_, ?_⟩
    · rw [hfail]
      constructor
      · intro hok; exact absurd hok (by simp [Except.isOk, Except.toBool])
      · rintro ⟨h, _⟩; exact absurd h h200
    · intro h; exact absurd h h200
    · intro _; exact hfail
    · intro h; exact absurd h h200

/-- Witness for C6: a 200 response without `errors` is returned unchanged. -/
theorem send_graphql_query_error_conditions_witness :
    send_graphql_query ⟨200, "", [("data", Json.null)]⟩ =
      .ok [("data", Json.null)] :=
  (send_graphql_query_error_conditions ⟨200, "", [("data", Json.null)]⟩).2.1
    rfl rfl

/-- Counterexample to C6's distinguishability clause: a transport failure
(HTTP 500, body text "boom") and a GraphQL-level failure (HTTP 200 with
`errors` equal to the JSON string "500 - boom") raise exceptions with the
IDENTICAL message, and both are the same bare `Exception` type — the caller
cannot tell the two failure kinds apart. -/
theorem send_graphql_query_indistinguishable :
    send_graphql_query ⟨500, "boom", []⟩ = .error "Error: 500 - boom" ∧
    send_graphql_query ⟨200, "", [("errors", .str "500 - boom")]⟩ =
      .error "Error: 500 - boom" ∧
    (500 : Nat) ≠ 200 ∧
    ([("errors", Json.str "500 - boom")] : List (String × Json)).lookup "errors" =
      some (.str "500 - boom") := by
  refine ⟨rfl, rfl, by decide, rfl⟩

end FiniteStateSdk
